import Mathlib

/-!
Verification of the session-booking backend (express + postgres).

The development shallowly embeds the booking routes:

* `POST /booking/book-session` exists in two variants in the repository:
  the string-split variant (`src/unnamed/part_000`, slot = hour - 9,
  notification dispatch after the insert) and the UTC variant
  (`src/unnamed/part_001`, slot = hour - 8).  The shared structured
  pipeline (token check, role check, speaker lookup, time validation,
  conflict check, insert) is `bookSlot`, parametrised by the slot
  mapping; the string-split variant with its partial hour extraction and
  post-insert notification step is `bookSession_v0`.
* `GET /speakers/available` (`src/app/routes/auth.js`) is `availWeek`
  and `speakersAvailable`.
* `GET /speakers/availability/:email/:year/:month` is `monthAvail`.

Timestamps are modelled at minute granularity: an absolute day index,
an hour-of-day and a minute (the code never inspects finer components
of a slot candidate, and `setHours(hour, 0, 0, 0)` zeroes the rest).
-/

namespace PA

/-- A calendar timestamp: absolute day index, hour-of-day, minute.
`day` plays the role of `DATE(session_date)` / the `Date` object's
calendar date; `hour`/`minute` are the time-of-day components. -/
structure Timestamp where
  day : Nat
  hour : Nat
  minute : Nat
deriving DecidableEq

/-- Total minutes since day 0; the model of `Date.getTime()` comparisons. -/
def toMin (t : Timestamp) : Nat :=
  (t.day * 24 + t.hour) * 60 + t.minute

/-- A row of the `bookings` table:
`(user_email, speaker_email, session_date, slot)`. -/
structure BookingRow where
  user_email : String
  speaker_email : String
  session_date : Timestamp
  slot : Int
deriving DecidableEq

/-- A row of the `users_js` table (the columns the booking routes read). -/
structure UserRow where
  email : String
  user_type : String
deriving DecidableEq

/-- The database state visible to the booking route: the `users_js`
table and the `bookings` table. -/
structure Store where
  users : List UserRow
  bookings : List BookingRow
deriving DecidableEq

/-- The distinct responses of `POST /booking/book-session`. -/
inductive Outcome where
  | NoToken       -- 401 "No token provided"
  | Forbidden     -- 403 "Only users can book sessions"
  | InvalidTarget -- 400 "Speaker not available"
  | InvalidSlot   -- 400 "Invalid session time. ..."
  | SlotTaken     -- 400 "Speaker already has a booking for this slot"
  | Booked        -- 200 "Session booked successfully"
  | ServerError   -- 500 "Failed to book session"
deriving DecidableEq

/-- The decoded JWT claims the route reads (`decoded.email`,
`decoded.user_type`). -/
structure Caller where
  email : String
  user_type : String
deriving DecidableEq

/-- A booking request: the verified caller context (`none` models a
request with no token cookie) plus the request body. -/
structure Request where
  caller : Option Caller
  speaker_email : String
  session : Timestamp
deriving DecidableEq

/-- Slot mapping of the string-split variant (`part_000`):
`const slot = hour - 9`. -/
def slot_v0 (h : Nat) : Int := (h : Int) - 9

/-- Slot mapping of the UTC variant (`part_001`):
`const slot = hour - 8`. -/
def slot_v1 (h : Nat) : Int := (h : Int) - 8

/-- The `WHERE` predicate of the conflict check:
`speaker_email = $1 AND slot = $2 AND DATE(session_date) = DATE($3)`. -/
def matchesTuple (sp : String) (sl : Int) (d : Nat) (b : BookingRow) : Bool :=
  b.speaker_email == sp && b.slot == sl && b.session_date.day == d

/-- Whether the conflict-check query returns at least one row. -/
def hasConflict (st : Store) (sp : String) (sl : Int) (d : Nat) : Bool :=
  st.bookings.any (matchesTuple sp sl d)

/-- Number of `bookings` rows for a `(speaker, slot, date)` tuple. -/
def tupleCount (st : Store) (sp : String) (sl : Int) (d : Nat) : Nat :=
  (st.bookings.filter (matchesTuple sp sl d)).length

/-- The speaker-existence query:
`SELECT * FROM users_js WHERE email = $1 AND user_type = 'speaker'`. -/
def speakerExists (st : Store) (em : String) : Bool :=
  st.users.any (fun u => u.email == em && u.user_type == "speaker")

/-- Structured embedding of `POST /booking/book-session`, parametrised by
the slot mapping (`slot_v0` for `part_000`, `slot_v1` for `part_001`):
token check, role check, speaker lookup, session-time validation
(`hour < 9 || hour > 16 || minutes != 0`), slot derivation, conflict
check and insert.  Returns the response and the resulting store. -/
def bookSlot (f : Nat → Int) (st : Store) (r : Request) : Outcome × Store :=
  match r.caller with
  | none => (Outcome.NoToken, st)
  | some c =>
    if c.user_type ≠ "user" then (Outcome.Forbidden, st)
    else if speakerExists st r.speaker_email = false then (Outcome.InvalidTarget, st)
    else if r.session.hour < 9 ∨ 16 < r.session.hour ∨ r.session.minute ≠ 0 then
      (Outcome.InvalidSlot, st)
    else if hasConflict st r.speaker_email (f r.session.hour) r.session.day then
      (Outcome.SlotTaken, st)
    else
      (Outcome.Booked,
        { st with bookings :=
            st.bookings ++ [⟨c.email, r.speaker_email, r.session, f r.session.hour⟩] })

/-- Sequential execution of a list of booking requests, threading the
store from call to call. -/
def runSeq (f : Nat → Int) (st : Store) : List Request → Store
  | [] => st
  | r :: rs => runSeq f (bookSlot f st r).2 rs

/-- A one-speaker store with an empty `bookings` table, used for
concrete evaluations. -/
def oneSpeakerStore : Store :=
  { users := [⟨"speaker@example.com", "speaker"⟩], bookings := [] }

/-- A valid request by `user@example.com` for 09:00 on day 19722
(2023-12-31). -/
def reqAt9 : Request :=
  { caller := some ⟨"user@example.com", "user"⟩
    speaker_email := "speaker@example.com"
    session := ⟨19722, 9, 0⟩ }

/-- A request-body value for `session_date` as seen by the string-split
variant.  `str` is a JavaScript string (as its character list);
`nonString` models a body value whose `.toString().split('T')[1].split(':')`
chain throws a `TypeError` (`null`/`undefined` throw at `.toString()`;
a number yields a digit string with no `'T'`, so `[1]` is `undefined`
and the second `.split` throws). -/
inductive JsVal where
  | str (s : List Char)
  | nonString
deriving DecidableEq

/-- The model of JavaScript `String.prototype.split` with a one-character
separator, on character lists. -/
def splitOnChar (c : Char) : List Char → List (List Char)
  | [] => [[]]
  | x :: xs =>
    let r := splitOnChar c xs
    if x = c then [] :: r
    else
      match r with
      | [] => [[x]]
      | y :: ys => (x :: y) :: ys

/-- The model of JavaScript `Number()` coercion on the strings that occur
as timestamp fields: the empty string is `0`, a digit string is its
value, anything else is `NaN` (`none`). -/
def digitsToNat : List Char → Option Nat
  | [] => some 0
  | c :: cs =>
    if c.isDigit then
      match digitsToNat cs with
      | some n => some ((c.toNat - 48) * 10 ^ cs.length + n)
      | none => none
    else none

/-- JavaScript `s < n` for a string `s` and number `n`: `ToNumber(s) < n`,
false when `ToNumber(s)` is `NaN`. -/
def jsNumLt (s : List Char) (n : Nat) : Bool :=
  match digitsToNat s with
  | some v => decide (v < n)
  | none => false

/-- JavaScript `s > n` for a string `s` and number `n`. -/
def jsNumGt (s : List Char) (n : Nat) : Bool :=
  match digitsToNat s with
  | some v => decide (n < v)
  | none => false

/-- JavaScript `minutes != 0` where `minutes` is `split(':')[1]`:
`undefined != 0` is true, and a string compares via `ToNumber`. -/
def jsNeqZero : Option (List Char) → Bool
  | none => true
  | some m =>
    match digitsToNat m with
    | some v => decide (v ≠ 0)
    | none => true

/-- The date component `DATE(session_date)` of a textual timestamp:
the part before the `'T'` separator. -/
def dateKey (s : List Char) : List Char :=
  (splitOnChar 'T' s).headD []

/-- A `bookings` row as stored by the string-split variant: the raw
textual `session_date`. -/
structure BookingRowS where
  user_email : String
  speaker_email : String
  session_date : List Char
  slot : Int
deriving DecidableEq

/-- Database state for the string-split variant. -/
structure StoreS where
  users : List UserRow
  bookings : List BookingRowS
deriving DecidableEq

/-- Speaker-existence query against a `StoreS`. -/
def speakerExistsS (st : StoreS) (em : String) : Bool :=
  st.users.any (fun u => u.email == em && u.user_type == "speaker")

/-- Conflict-check query of the string-split variant: rows matching
`speaker_email = $1 AND slot = $2 AND DATE(session_date) = DATE($3)`. -/
def hasConflictS (st : StoreS) (sp : String) (sl : Int) (dk : List Char) : Bool :=
  st.bookings.any (fun b => b.speaker_email == sp && b.slot == sl && dateKey b.session_date == dk)

/-- Full embedding of the string-split `POST /booking/book-session`
(`src/unnamed/part_000`): hour and minute are extracted by
`session_date.toString().split('T')[1].split(':')`, validated with
JavaScript coercing comparisons, the slot is `hour - 9`, and after the
insert the handler awaits the email dispatch and calendar insert —
modelled by `notifyOk`; when either throws, the shared catch block
answers 500 without removing the inserted row.  A thrown `TypeError`
from the split chain and a store rejection of a `NaN` slot parameter
land in the same catch block. -/
def bookSession_v0 (st : StoreS) (caller : Option Caller) (sp : String)
    (sd : JsVal) (notifyOk : Bool) : Outcome × StoreS :=
  match caller with
  | none => (Outcome.NoToken, st)
  | some c =>
    if c.user_type ≠ "user" then (Outcome.Forbidden, st)
    else if speakerExistsS st sp = false then (Outcome.InvalidTarget, st)
    else
      match sd with
      | JsVal.nonString => (Outcome.ServerError, st)
      | JsVal.str s =>
        match (splitOnChar 'T' s)[1]? with
        | none => (Outcome.ServerError, st)
        | some tpart =>
          let hs := (splitOnChar ':' tpart).headD []
          let ms := (splitOnChar ':' tpart)[1]?
          if jsNumLt hs 9 || jsNumGt hs 16 || jsNeqZero ms then (Outcome.InvalidSlot, st)
          else
            match digitsToNat hs with
            | none => (Outcome.ServerError, st)
            | some h =>
              let sl : Int := (h : Int) - 9
              if hasConflictS st sp sl (dateKey s) then (Outcome.SlotTaken, st)
              else
                let st2 : StoreS :=
                  { st with bookings := st.bookings ++ [⟨c.email, sp, s, sl⟩] }
                if notifyOk then (Outcome.Booked, st2) else (Outcome.ServerError, st2)

/-- A one-speaker `StoreS` with an empty `bookings` table. -/
def oneSpeakerStoreS : StoreS :=
  { users := [⟨"speaker@example.com", "speaker"⟩], bookings := [] }

/-- The caller context of a logged-in user. -/
def userCaller : Caller := ⟨"user@example.com", "user"⟩

/-- The schedule template of both availability routes:
`for (let hour = 9; hour <= 16; hour++)`. -/
def hoursTemplate : List Nat := [9, 10, 11, 12, 13, 14, 15, 16]

/-- `nextWeekDate`: the current instant shifted by seven days
(`nextWeekDate.setDate(currentDate.getDate() + 7)`). -/
def nextWeekOf (now : Timestamp) : Timestamp :=
  ⟨now.day + 7, now.hour, now.minute⟩

/-- The inner hour loop of `GET /speakers/available` for one day `d`:
each candidate is `d` at `hour:00`; `break` when the candidate passes
`nextWeekDate`, `continue` when it lies before `currentDate`, skip it
when some booking's `session_date` has the same `getTime()` — the
predicate reads only `booking.session_date`, never
`booking.speaker_email` — and push it otherwise. -/
def weekInner (now nextWeek : Timestamp) (bookings : List BookingRow) (d : Nat) :
    List Nat → List Timestamp
  | [] => []
  | h :: hs =>
    let s : Timestamp := ⟨d, h, 0⟩
    if toMin nextWeek < toMin s then []
    else if toMin s < toMin now then weekInner now nextWeek bookings d hs
    else if bookings.any (fun b => toMin b.session_date == toMin s) then
      weekInner now nextWeek bookings d hs
    else s :: weekInner now nextWeek bookings d hs

/-- The slot enumeration of `GET /speakers/available`: days 0..6 from
the current date, hours 9..16. -/
def availWeek (now : Timestamp) (bookings : List BookingRow) : List Timestamp :=
  (List.range 7).flatMap
    (fun day => weekInner now (nextWeekOf now) bookings (now.day + day) hoursTemplate)

/-- The outer speaker loop of `GET /speakers/available`: for every
speaker the route runs the same slot enumeration over the same
`bookings` result set (all bookings of the week, all speakers), and
keeps the speaker when some slot is open. -/
def speakersAvailable (now : Timestamp) (speakerEmails : List String)
    (bookings : List BookingRow) : List (String × List Timestamp) :=
  speakerEmails.filterMap
    (fun sp =>
      let av := availWeek now bookings
      if av.isEmpty then none else some (sp, av))

/-- The day/hour loop of
`GET /speakers/availability/:email/:year/:month`: the day counter runs
from `currentDate.getDate()` (the current day-of-month, `curDay`) to
`lastDate.getDate()` (the queried month's length, `monthLen`); each
candidate is day `monthStart + day - 1` (where `monthStart` is the
absolute day index of the queried month's first day) at `hour:00`;
candidates before `currentDate` are skipped, as are candidates whose
`getTime()` equals some booking's `session_date` (bookings here come
from a query already filtered by the speaker's email). -/
def monthAvail (now : Timestamp) (curDay monthLen monthStart : Nat)
    (bookings : List BookingRow) : List Timestamp :=
  ((List.range (monthLen + 1 - curDay)).map (fun i => curDay + i)).flatMap
    (fun day =>
      hoursTemplate.filterMap
        (fun h =>
          let s : Timestamp := ⟨monthStart + day - 1, h, 0⟩
          if toMin s < toMin now then none
          else if bookings.any (fun b => toMin b.session_date == toMin s) then none
          else some s))

/-- Interleaved execution of two booking calls in the schedule
check1 → check2 → insert1 → insert2, which the handler's
non-transactional check-then-insert permits: each `await pool.query`
yields, so the second call's conflict check can read the store before
the first call's `INSERT` lands, and the plain `INSERT` (no uniqueness
constraint, no transaction) then applies both writes.  The outcome of
each call is its conflict check against the initial store; the final
store carries the insert of every call that passed its check. -/
def raceBoth (f : Nat → Int) (st : Store) (r1 r2 : Request) : Outcome × Outcome × Store :=
  let a1 := bookSlot f st r1
  let o2 := (bookSlot f st r2).1
  let st2 :=
    if o2 = Outcome.Booked then
      match r2.caller with
      | some c =>
        { a1.2 with bookings :=
            a1.2.bookings ++ [⟨c.email, r2.speaker_email, r2.session, f r2.session.hour⟩] }
      | none => a1.2
    else a1.2
  (a1.1, o2, st2)

/-- A second user's request for the same speaker, date and hour as
`reqAt9`. -/
def reqAt9other : Request :=
  { caller := some ⟨"user2@example.com", "user"⟩
    speaker_email := "speaker@example.com"
    session := ⟨19722, 9, 0⟩ }

end PA

namespace PA

/-- C2 counterexample: the UTC variant (`part_001`) does not derive the
slot index as `hour - 9`.  Booking 09:00 through it stores slot `1`,
not `0`, and hour 16 maps to slot `8`, outside `[0,7]`. -/
theorem slot_hourMinus9_cex :
    ((bookSlot slot_v1 oneSpeakerStore reqAt9).2.bookings.map (fun b => b.slot) = [1])
    ∧ (1 : Int) ≠ 0 ∧ slot_v1 16 = 8 ∧ ¬ (slot_v1 16 ≤ 7) := by
  decide

/-- C2 amended: the string-split variant derives `slot = hour - 9`,
an integer in `[0,7]` with 09:00 ↦ 0 and 16:00 ↦ 7, while the UTC
variant derives `slot = hour - 8`, an integer in `[1,8]` with
09:00 ↦ 1 and 16:00 ↦ 8; each mapping is a pure function of the hour. -/
theorem slot_mappings_characterised (h : Nat) (h9 : 9 ≤ h) (h16 : h ≤ 16) :
    slot_v0 h = (h : Int) - 9 ∧ 0 ≤ slot_v0 h ∧ slot_v0 h ≤ 7 ∧
    slot_v0 9 = 0 ∧ slot_v0 16 = 7 ∧
    slot_v1 h = (h : Int) - 8 ∧ 1 ≤ slot_v1 h ∧ slot_v1 h ≤ 8 := by
  unfold slot_v0 slot_v1
  refine ⟨rfl, by omega, by omega, by norm_num, by norm_num, rfl, by omega, by omega⟩

/-- Witness for `slot_mappings_characterised` at hour 16. -/
theorem slot_mappings_characterised_witness :
    9 ≤ 16 ∧ slot_v0 16 = (16 : Int) - 9 ∧ slot_v1 16 = (16 : Int) - 8 := by
  have h := slot_mappings_characterised 16 (by norm_num) (by norm_num)
  exact ⟨by norm_num, h.1, h.2.2.2.2.2.1⟩

/-- On a valid, conflict-free request the route inserts exactly the new
row and reports success. -/
lemma bookSlot_success_eq (f : Nat → Int) (st : Store) (r : Request) (c : Caller)
    (hc : r.caller = some c) (hrole : c.user_type = "user")
    (hsp : speakerExists st r.speaker_email = true)
    (hh9 : 9 ≤ r.session.hour) (hh16 : r.session.hour ≤ 16) (hm : r.session.minute = 0)
    (hfree : hasConflict st r.speaker_email (f r.session.hour) r.session.day = false) :
    bookSlot f st r =
      (Outcome.Booked,
        { st with bookings :=
            st.bookings ++ [⟨c.email, r.speaker_email, r.session, f r.session.hour⟩] }) := by
  have hval : ¬ (r.session.hour < 9 ∨ 16 < r.session.hour ∨ r.session.minute ≠ 0) := by
    omega
  have hnr : ¬ (c.user_type ≠ "user") := by simp [hrole]
  have hnsp : ¬ (speakerExists st r.speaker_email = false) := by simp [hsp]
  have hnconf : ¬ (hasConflict st r.speaker_email (f r.session.hour) r.session.day = true) := by
    simp [hfree]
  unfold bookSlot
  rw [hc]
  dsimp only
  rw [if_neg hnr, if_neg hnsp, if_neg hval, if_neg hnconf]

/-- C8: from a store with no booking for the targeted tuple, a valid
booking request succeeds, and repeating the identical request is
rejected with the slot-taken error and leaves the store unchanged. -/
theorem bookSlot_idempotent_rejection (st : Store) (r : Request) (c : Caller)
    (hc : r.caller = some c) (hrole : c.user_type = "user")
    (hsp : speakerExists st r.speaker_email = true)
    (hh9 : 9 ≤ r.session.hour) (hh16 : r.session.hour ≤ 16) (hm : r.session.minute = 0)
    (hfree : hasConflict st r.speaker_email (slot_v0 r.session.hour) r.session.day = false) :
    (bookSlot slot_v0 st r).1 = Outcome.Booked ∧
    (bookSlot slot_v0 (bookSlot slot_v0 st r).2 r).1 = Outcome.SlotTaken ∧
    (bookSlot slot_v0 (bookSlot slot_v0 st r).2 r).2 = (bookSlot slot_v0 st r).2 := by
  have hval : ¬ (r.session.hour < 9 ∨ 16 < r.session.hour ∨ r.session.minute ≠ 0) := by
    omega
  have hnr : ¬ (c.user_type ≠ "user") := by simp [hrole]
  have h1 := bookSlot_success_eq slot_v0 st r c hc hrole hsp hh9 hh16 hm hfree
  have h2 : (bookSlot slot_v0 st r).2 =
      { st with bookings :=
          st.bookings ++ [⟨c.email, r.speaker_email, r.session, slot_v0 r.session.hour⟩] } := by
    rw [h1]
  have hsp2 : ¬ (speakerExists
      { st with bookings :=
          st.bookings ++ [⟨c.email, r.speaker_email, r.session, slot_v0 r.session.hour⟩] }
      r.speaker_email = false) := by
    simp only [speakerExists] at hsp ⊢
    simp [hsp]
  have hconf2 : hasConflict
      { st with bookings :=
          st.bookings ++ [⟨c.email, r.speaker_email, r.session, slot_v0 r.session.hour⟩] }
      r.speaker_email (slot_v0 r.session.hour) r.session.day = true := by
    unfold hasConflict
    simp [List.any_append, matchesTuple]
  have h3 : bookSlot slot_v0
      { st with bookings :=
          st.bookings ++ [⟨c.email, r.speaker_email, r.session, slot_v0 r.session.hour⟩] } r =
      (Outcome.SlotTaken,
        { st with bookings :=
            st.bookings ++ [⟨c.email, r.speaker_email, r.session, slot_v0 r.session.hour⟩] }) := by
    unfold bookSlot
    rw [hc]
    dsimp only
    rw [if_neg hnr, if_neg hsp2, if_neg hval, if_pos hconf2]
  refine ⟨by rw [h1], ?_, ?_⟩
  · rw [h2, h3]
  · rw [h2, h3]

/-- C6: for an authorized user targeting an existing speaker, the
booking call answers `InvalidSlot` exactly when the requested hour lies
outside `[9,16]` or the minute component is nonzero; in the string
variant, 09:30, 08:00 and 17:00 are all answered with `InvalidSlot`. -/
theorem invalidSlot_iff (f : Nat → Int) (st : Store) (r : Request) (c : Caller)
    (hc : r.caller = some c) (hrole : c.user_type = "user")
    (hsp : speakerExists st r.speaker_email = true) :
    ((bookSlot f st r).1 = Outcome.InvalidSlot ↔
      (r.session.hour < 9 ∨ 16 < r.session.hour ∨ r.session.minute ≠ 0)) ∧
    (bookSession_v0 oneSpeakerStoreS (some userCaller) "speaker@example.com"
      (JsVal.str "2023-12-31T09:30:00".data) true).1 = Outcome.InvalidSlot ∧
    (bookSession_v0 oneSpeakerStoreS (some userCaller) "speaker@example.com"
      (JsVal.str "2023-12-31T08:00:00".data) true).1 = Outcome.InvalidSlot ∧
    (bookSession_v0 oneSpeakerStoreS (some userCaller) "speaker@example.com"
      (JsVal.str "2023-12-31T17:00:00".data) true).1 = Outcome.InvalidSlot := by
  refine ⟨?_, by decide, by decide, by decide⟩
  have hnr : ¬ (c.user_type ≠ "user") := by simp [hrole]
  have hnsp : ¬ (speakerExists st r.speaker_email = false) := by simp [hsp]
  unfold bookSlot
  rw [hc]
  dsimp only
  rw [if_neg hnr, if_neg hnsp]
  by_cases hval : r.session.hour < 9 ∨ 16 < r.session.hour ∨ r.session.minute ≠ 0
  · rw [if_pos hval]
    simpa using hval
  · rw [if_neg hval]
    by_cases hcf : hasConflict st r.speaker_email (f r.session.hour) r.session.day = true
    · rw [if_pos hcf]
      simpa using hval
    · rw [if_neg hcf]
      simpa using hval

/-- Witness for `invalidSlot_iff`: the 09:30 request on the structured
pipeline is answered with `InvalidSlot`. -/
theorem invalidSlot_iff_witness :
    (bookSlot slot_v0 oneSpeakerStore
      { caller := some userCaller
        speaker_email := "speaker@example.com"
        session := ⟨19722, 9, 30⟩ }).1 = Outcome.InvalidSlot :=
  ((invalidSlot_iff slot_v0 oneSpeakerStore
      { caller := some userCaller
        speaker_email := "speaker@example.com"
        session := ⟨19722, 9, 30⟩ } userCaller rfl rfl (by decide)).1).mpr
    (by decide)

/-- Unfolding of the conflict-check predicate into field equations. -/
lemma matchesTuple_true_iff (sp : String) (sl : Int) (d : Nat) (b : BookingRow) :
    matchesTuple sp sl d b = true ↔
      (b.speaker_email = sp ∧ b.slot = sl ∧ b.session_date.day = d) := by
  simp [matchesTuple, Bool.and_eq_true, and_assoc]

/-- The conflict check is empty exactly when the tuple has no rows. -/
lemma hasConflict_false_iff (st : Store) (sp : String) (sl : Int) (d : Nat) :
    hasConflict st sp sl d = false ↔ tupleCount st sp sl d = 0 := by
  unfold hasConflict tupleCount
  rw [List.any_eq_false, List.length_eq_zero, List.filter_eq_nil_iff]

/-- One `bookSlot` step preserves the at-most-one-row invariant for
every `(speaker, slot, date)` tuple: the insert only happens when the
conflict check found no row for the tuple. -/
lemma tupleCount_bookSlot_le (f : Nat → Int) (st : Store) (r : Request)
    (sp : String) (sl : Int) (d : Nat) (h : tupleCount st sp sl d ≤ 1) :
    tupleCount (bookSlot f st r).2 sp sl d ≤ 1 := by
  unfold bookSlot
  cases hc : r.caller with
  | none => exact h
  | some c =>
    dsimp only
    split_ifs with h1 h2 h3 h4
    · exact h
    · exact h
    · exact h
    · exact h
    · -- insert branch: the conflict check found no row
      have hfree : hasConflict st r.speaker_email (f r.session.hour) r.session.day = false := by
        simpa using h4
      unfold tupleCount at h ⊢
      rw [List.filter_append, List.length_append]
      by_cases hm : matchesTuple sp sl d
          ⟨c.email, r.speaker_email, r.session, f r.session.hour⟩ = true
      · obtain ⟨e1, e2, e3⟩ := (matchesTuple_true_iff sp sl d _).mp hm
        dsimp only at e1 e2 e3
        have hf : hasConflict st sp sl d = false := by
          rw [← e1, ← e2, ← e3]
          exact hfree
        have h0 : (st.bookings.filter (matchesTuple sp sl d)).length = 0 := by
          simpa [tupleCount] using (hasConflict_false_iff st sp sl d).mp hf
        simp [List.filter, hm, h0]
      · simp only [Bool.not_eq_true] at hm
        simpa [List.filter, hm] using h

/-- C1: starting from an empty `bookings` table, after any sequence of
`bookSlot` calls executed one after another, at most one booking row
exists for every `(speaker, slot, date)` tuple, for either slot
mapping. -/
theorem runSeq_at_most_one_booking (f : Nat → Int) (users : List UserRow)
    (rs : List Request) (sp : String) (sl : Int) (d : Nat) :
    tupleCount (runSeq f { users := users, bookings := [] } rs) sp sl d ≤ 1 := by
  suffices h : ∀ (st : Store), tupleCount st sp sl d ≤ 1 →
      tupleCount (runSeq f st rs) sp sl d ≤ 1 by
    exact h _ (by simp [tupleCount])
  induction rs with
  | nil => intro st hst; exact hst
  | cons r rs ih =>
    intro st hst
    exact ih _ (tupleCount_bookSlot_le f st r sp sl d hst)

/-- Case analysis of the string-split handler against the notification
flag: every branch before the insert is independent of it and never
reports success; after the insert, the outcome is `Booked` when the
notification steps succeed and `ServerError` when one of them throws,
with the same resulting store either way. -/
lemma bookSession_v0_notify_cases (st : StoreS) (caller : Option Caller)
    (sp : String) (sd : JsVal) :
    (∃ o, bookSession_v0 st caller sp sd true = (o, st) ∧
          bookSession_v0 st caller sp sd false = (o, st) ∧ o ≠ Outcome.Booked) ∨
    (∃ st2, bookSession_v0 st caller sp sd true = (Outcome.Booked, st2) ∧
            bookSession_v0 st caller sp sd false = (Outcome.ServerError, st2)) := by
  unfold bookSession_v0
  cases caller with
  | none => exact Or.inl ⟨Outcome.NoToken, rfl, rfl, by decide⟩
  | some c =>
    dsimp only
    by_cases h1 : c.user_type ≠ "user"
    · rw [if_pos h1, if_pos h1]
      exact Or.inl ⟨Outcome.Forbidden, rfl, rfl, by decide⟩
    · rw [if_neg h1, if_neg h1]
      by_cases h2 : speakerExistsS st sp = false
      · rw [if_pos h2, if_pos h2]
        exact Or.inl ⟨Outcome.InvalidTarget, rfl, rfl, by decide⟩
      · rw [if_neg h2, if_neg h2]
        cases sd with
        | nonString => exact Or.inl ⟨Outcome.ServerError, rfl, rfl, by decide⟩
        | str s =>
          dsimp only
          cases hsplit : (splitOnChar 'T' s)[1]? with
          | none => exact Or.inl ⟨Outcome.ServerError, rfl, rfl, by decide⟩
          | some tpart =>
            dsimp only
            by_cases hv : (jsNumLt ((splitOnChar ':' tpart).headD []) 9 ||
                jsNumGt ((splitOnChar ':' tpart).headD []) 16 ||
                jsNeqZero (splitOnChar ':' tpart)[1]?) = true
            · rw [if_pos hv, if_pos hv]
              exact Or.inl ⟨Outcome.InvalidSlot, rfl, rfl, by decide⟩
            · rw [if_neg hv, if_neg hv]
              cases hd : digitsToNat ((splitOnChar ':' tpart).headD []) with
              | none => exact Or.inl ⟨Outcome.ServerError, rfl, rfl, by decide⟩
              | some h =>
                dsimp only
                by_cases hcf : hasConflictS st sp ((h : Int) - 9) (dateKey s) = true
                · rw [if_pos hcf, if_pos hcf]
                  exact Or.inl ⟨Outcome.SlotTaken, rfl, rfl, by decide⟩
                · rw [if_neg hcf, if_neg hcf]
                  exact Or.inr ⟨_, rfl, rfl⟩

/-- C5 counterexample: when the post-insert notification step throws,
the string-split handler does not report the booking as successful —
it answers the generic 500 — although the inserted row persists. -/
theorem notify_failure_cex :
    (bookSession_v0 oneSpeakerStoreS (some userCaller) "speaker@example.com"
      (JsVal.str "2023-12-31T10:00:00".data) false).1 ≠ Outcome.Booked ∧
    (bookSession_v0 oneSpeakerStoreS (some userCaller) "speaker@example.com"
      (JsVal.str "2023-12-31T10:00:00".data) false).1 = Outcome.ServerError ∧
    ((bookSession_v0 oneSpeakerStoreS (some userCaller) "speaker@example.com"
      (JsVal.str "2023-12-31T10:00:00".data) false).2.bookings.length = 1) := by
  decide

/-- C5 amended: a failure of the downstream notification step does not
roll the committed booking back — the store ends up exactly as on the
success path — but the reported outcome becomes the generic 500 failure
instead of success. -/
theorem notify_failure_keeps_row (st : StoreS) (caller : Option Caller)
    (sp : String) (sd : JsVal)
    (hok : (bookSession_v0 st caller sp sd true).1 = Outcome.Booked) :
    (bookSession_v0 st caller sp sd false).1 = Outcome.ServerError ∧
    (bookSession_v0 st caller sp sd false).2 = (bookSession_v0 st caller sp sd true).2 := by
  rcases bookSession_v0_notify_cases st caller sp sd with ⟨o, e1, e2, ho⟩ | ⟨st2, e1, e2⟩
  · rw [e1] at hok
    exact absurd hok ho
  · rw [e1, e2]
    exact ⟨rfl, rfl⟩

/-- Witness for `notify_failure_keeps_row` on a concrete valid booking. -/
theorem notify_failure_keeps_row_witness :
    (bookSession_v0 oneSpeakerStoreS (some userCaller) "speaker@example.com"
      (JsVal.str "2023-12-31T10:00:00".data) true).1 = Outcome.Booked ∧
    (bookSession_v0 oneSpeakerStoreS (some userCaller) "speaker@example.com"
      (JsVal.str "2023-12-31T10:00:00".data) false).1 = Outcome.ServerError :=
  ⟨by decide,
    (notify_failure_keeps_row oneSpeakerStoreS (some userCaller) "speaker@example.com"
      (JsVal.str "2023-12-31T10:00:00".data) (by decide)).1⟩

/-- C10: in the string-splitting variant, a `session_date` with no `'T'`
separator and a non-string `session_date` both make the hour-extraction
expression throw, and the request is answered with the generic
500 failure, not with `InvalidSlot`. -/
theorem badDate_serverError :
    bookSession_v0 oneSpeakerStoreS (some userCaller) "speaker@example.com"
      (JsVal.str "2023-12-31 10:00:00".data) true = (Outcome.ServerError, oneSpeakerStoreS) ∧
    bookSession_v0 oneSpeakerStoreS (some userCaller) "speaker@example.com"
      JsVal.nonString true = (Outcome.ServerError, oneSpeakerStoreS) ∧
    Outcome.ServerError ≠ Outcome.InvalidSlot := by
  decide

/-- Witness for `bookSlot_idempotent_rejection` on the one-speaker store
and the 09:00 request. -/
theorem bookSlot_idempotent_rejection_witness :
    (bookSlot slot_v0 oneSpeakerStore reqAt9).1 = Outcome.Booked ∧
    (bookSlot slot_v0 (bookSlot slot_v0 oneSpeakerStore reqAt9).2 reqAt9).1 =
      Outcome.SlotTaken ∧
    (bookSlot slot_v0 (bookSlot slot_v0 oneSpeakerStore reqAt9).2 reqAt9).2 =
      (bookSlot slot_v0 oneSpeakerStore reqAt9).2 :=
  bookSlot_idempotent_rejection oneSpeakerStore reqAt9 ⟨"user@example.com", "user"⟩
    rfl rfl (by decide) (by decide) (by decide) rfl (by decide)

end PA

namespace PA

/-- C3 evidence: in the schedule where both conflict checks run before
either insert, both calls report success and the store ends with two
rows for the same `(speaker, slot, date)` tuple — the code has neither
a transaction around the check-then-insert nor a uniqueness constraint
guarding the insert. -/
theorem race_two_successes :
    (raceBoth slot_v0 oneSpeakerStore reqAt9 reqAt9other).1 = Outcome.Booked ∧
    (raceBoth slot_v0 oneSpeakerStore reqAt9 reqAt9other).2.1 = Outcome.Booked ∧
    tupleCount (raceBoth slot_v0 oneSpeakerStore reqAt9 reqAt9other).2.2
      "speaker@example.com" (slot_v0 9) 19722 = 2 := by
  decide

/-- Every timestamp produced by the inner hour loop lies on the scanned
day, at one of the template hours, with zero minutes, and not before
`currentDate`; and it collides with no booking in the queried set. -/
lemma weekInner_mem (now nw : Timestamp) (bookings : List BookingRow) (d : Nat)
    (hs : List Nat) (t : Timestamp) (hmem : t ∈ weekInner now nw bookings d hs) :
    t.hour ∈ hs ∧ t.minute = 0 ∧ t.day = d ∧ toMin now ≤ toMin t ∧
      (bookings.any (fun b => toMin b.session_date == toMin t)) = false := by
  induction hs with
  | nil => simp [weekInner] at hmem
  | cons h hs ih =>
    rw [weekInner] at hmem
    by_cases h1 : toMin nw < toMin (⟨d, h, 0⟩ : Timestamp)
    · rw [if_pos h1] at hmem
      simp at hmem
    · rw [if_neg h1] at hmem
      by_cases h2 : toMin (⟨d, h, 0⟩ : Timestamp) < toMin now
      · rw [if_pos h2] at hmem
        obtain ⟨ha, hb, hc, hd, he⟩ := ih hmem
        exact ⟨List.mem_cons_of_mem _ ha, hb, hc, hd, he⟩
      · rw [if_neg h2] at hmem
        by_cases h3 : (bookings.any fun b =>
            toMin b.session_date == toMin (⟨d, h, 0⟩ : Timestamp)) = true
        · rw [if_pos h3] at hmem
          obtain ⟨ha, hb, hc, hd, he⟩ := ih hmem
          exact ⟨List.mem_cons_of_mem _ ha, hb, hc, hd, he⟩
        · rw [if_neg h3] at hmem
          rcases List.mem_cons.mp hmem with rfl | hmem2
          · refine ⟨List.mem_cons_self _ _, rfl, rfl, by omega, ?_⟩
            simpa using h3
          · obtain ⟨ha, hb, hc, hd, he⟩ := ih hmem2
            exact ⟨List.mem_cons_of_mem _ ha, hb, hc, hd, he⟩

/-- C7: every timestamp returned by the next-7-days enumeration is at or
after the current instant, has an hour inside `[9,16]` and a zero
minute component. -/
theorem availWeek_range_correct (now : Timestamp) (bookings : List BookingRow)
    (t : Timestamp) (ht : t ∈ availWeek now bookings) :
    toMin now ≤ toMin t ∧ 9 ≤ t.hour ∧ t.hour ≤ 16 ∧ t.minute = 0 := by
  obtain ⟨day, hday, hmem⟩ := List.mem_flatMap.mp ht
  obtain ⟨ha, hb, _, hd, _⟩ := weekInner_mem now (nextWeekOf now) bookings _ _ t hmem
  have hh : 9 ≤ t.hour ∧ t.hour ≤ 16 := by
    simp [hoursTemplate] at ha
    omega
  exact ⟨hd, hh.1, hh.2, hb⟩

/-- Witness for `availWeek_range_correct`: 10:00 on the current day is
enumerated when the store has no bookings, and it satisfies the range
guarantees. -/
theorem availWeek_range_correct_witness :
    (⟨0, 10, 0⟩ : Timestamp) ∈ availWeek ⟨0, 9, 0⟩ [] ∧
    (toMin ⟨0, 9, 0⟩ ≤ toMin ⟨0, 10, 0⟩ ∧ 9 ≤ (10 : Nat) ∧ (10 : Nat) ≤ 16 ∧ (0 : Nat) = 0) :=
  ⟨by decide, by
    have h := availWeek_range_correct ⟨0, 9, 0⟩ [] ⟨0, 10, 0⟩ (by decide)
    exact h⟩

/-- A booking used for the C4 counterexample: it belongs to speaker
`bob@example.com`, not to the queried speaker `alice@example.com`. -/
def bobBooking : BookingRow :=
  ⟨"user@example.com", "bob@example.com", ⟨100, 12, 0⟩, 3⟩

/-- C4 counterexample: the all-speakers route removes 12:00 from
`alice@example.com`'s open slots because of a booking that belongs to
`bob@example.com` — the store holds no booking of alice at all, the
slot is open when the bookings set is empty, yet alice's reported slot
list (which the route computes as `availWeek` over the unfiltered
bookings) does not contain it. -/
theorem other_speaker_booking_excludes_cex :
    bobBooking.speaker_email ≠ "alice@example.com" ∧
    ([bobBooking].filter (fun b => b.speaker_email == "alice@example.com")) = [] ∧
    (⟨100, 12, 0⟩ : Timestamp) ∈ availWeek ⟨100, 9, 0⟩ [] ∧
    speakersAvailable ⟨100, 9, 0⟩ ["alice@example.com"] [bobBooking] =
      [("alice@example.com", availWeek ⟨100, 9, 0⟩ [bobBooking])] ∧
    ¬ (⟨100, 12, 0⟩ : Timestamp) ∈ availWeek ⟨100, 9, 0⟩ [bobBooking] := by
  decide

/-- C4 amended: a candidate is excluded from a speaker's open slots
exactly by timestamp collision with any booking in the week's result
set, regardless of which speaker that booking belongs to: every
returned timestamp collides with no booking at all, and a timestamp
matching any booking — whoever its speaker is — is never returned. -/
theorem availWeek_excludes_any_speaker (now : Timestamp) (bookings : List BookingRow)
    (t : Timestamp) :
    (t ∈ availWeek now bookings → ∀ b ∈ bookings, toMin b.session_date ≠ toMin t) ∧
    ((bookings.any (fun b => toMin b.session_date == toMin t)) = true →
      t ∉ availWeek now bookings) := by
  have key : t ∈ availWeek now bookings →
      (bookings.any (fun b => toMin b.session_date == toMin t)) = false := by
    intro ht
    obtain ⟨day, hday, hmem⟩ := List.mem_flatMap.mp ht
    exact (weekInner_mem now (nextWeekOf now) bookings _ _ t hmem).2.2.2.2
  constructor
  · intro ht b hb
    have := List.any_eq_false.mp (key ht) b hb
    simpa using this
  · intro hany ht
    rw [key ht] at hany
    cases hany

/-- Witness for `availWeek_excludes_any_speaker`: bob's 12:00 booking
keeps 12:00 out of the enumeration. -/
theorem availWeek_excludes_any_speaker_witness :
    ¬ (⟨100, 12, 0⟩ : Timestamp) ∈ availWeek ⟨100, 9, 0⟩ [bobBooking] :=
  (availWeek_excludes_any_speaker ⟨100, 9, 0⟩ [bobBooking] ⟨100, 12, 0⟩).2 (by decide)

/-- C9: the per-month route scans days from the current day-of-month up
to the queried month's length, so every returned timestamp lies on a
day of the queried month numbered at least `curDay`, and when the
current day-of-month exceeds the month's length the result is empty. -/
theorem monthAvail_day_scan (now : Timestamp) (curDay monthLen monthStart : Nat)
    (bookings : List BookingRow) :
    (∀ t ∈ monthAvail now curDay monthLen monthStart bookings,
      ∃ d, curDay ≤ d ∧ d ≤ monthLen ∧ t.day = monthStart + d - 1) ∧
    (monthLen < curDay → monthAvail now curDay monthLen monthStart bookings = []) := by
  constructor
  · intro t ht
    obtain ⟨day, hday, hmem⟩ := List.mem_flatMap.mp ht
    obtain ⟨i, hi, rfl⟩ := List.mem_map.mp hday
    have hir : i < monthLen + 1 - curDay := List.mem_range.mp hi
    obtain ⟨h, hh, heq⟩ := List.mem_filterMap.mp hmem
    refine ⟨curDay + i, by omega, by omega, ?_⟩
    by_cases c1 : toMin (⟨monthStart + (curDay + i) - 1, h, 0⟩ : Timestamp) < toMin now
    · rw [if_pos c1] at heq
      cases heq
    · rw [if_neg c1] at heq
      by_cases c2 : (bookings.any fun b =>
          toMin b.session_date ==
            toMin (⟨monthStart + (curDay + i) - 1, h, 0⟩ : Timestamp)) = true
      · rw [if_pos c2] at heq
        cases heq
      · rw [if_neg c2] at heq
        cases heq
        rfl
  · intro hlt
    have h0 : monthLen + 1 - curDay = 0 := by omega
    simp [monthAvail, h0]

/-- Witness for `monthAvail_day_scan`: querying a 30-day month on the
31st of the current month yields no slots. -/
theorem monthAvail_day_scan_witness :
    monthAvail ⟨200, 9, 0⟩ 31 30 300 [] = [] :=
  (monthAvail_day_scan ⟨200, 9, 0⟩ 31 30 300 []).2 (by decide)

end PA
